import Mathlib

/-!
Shallow embedding of the dtype resolution engine of py-polars
(`polars/datatypes/convert.py` and `polars/io/database.py`), together with
theorems checking the natural-language specification against it.

Strings are embedded as `List Char` (named `Str` below); Python functions
become Lean functions over `Str`.  Python exceptions are made explicit by
returning `Except`.  The character classes of the regular expressions used
by the source (`\w`, `\d`) are modelled over ASCII, which covers every
type-name string the source and the spec discuss.
-/

set_option autoImplicit false

abbrev Str := List Char

def isWordChar (c : Char) : Bool := c.isAlpha || c.isDigit || c == '_'

/-- The prefix test `v.startswith(pat)` of Python. -/
def hasPfx : Str → Str → Bool
  | [], _ => true
  | _ :: _, [] => false
  | p :: ps, c :: cs => p == c && hasPfx ps cs

/-- The suffix test `v.endswith(pat)` of Python. -/
def hasSfx (pat v : Str) : Bool := hasPfx pat.reverse v.reverse

/-- The substring test `pat in v` of Python. -/
def containsSub (pat : Str) : Str → Bool
  | [] => hasPfx pat []
  | c :: rest => hasPfx pat (c :: rest) || containsSub pat rest

/-- Python `v.upper()` (ASCII). -/
def strUpper (v : Str) : Str := v.map Char.toUpper

/-- Python `v.replace("TYPE", "")`: remove every occurrence of `TYPE`.
The first argument counts characters of a matched occurrence still to be
skipped, so that the recursion is structural on the string. -/
def removeTYPEAux : Nat → Str → Str
  | _, [] => []
  | n + 1, _ :: rest => removeTYPEAux n rest
  | 0, c :: rest =>
    if hasPfx ("TYPE".data) (c :: rest) then removeTYPEAux 3 rest
    else c :: removeTYPEAux 0 rest

def removeTYPE (v : Str) : Str := removeTYPEAux 0 v

/-- Python `v.replace(pat, "", 1)`: remove the first occurrence of `pat`. -/
def replFirst (pat : Str) : Str → Str
  | [] => []
  | c :: rest =>
    if hasPfx pat (c :: rest) then List.drop pat.length (c :: rest)
    else c :: replFirst pat rest

/-- Python `v.replace(" ", "")`. -/
def removeSpaces (v : Str) : Str := v.filter (fun c => !(c == ' '))

/-- Python `re.sub(r"\W", "", v)`: keep only word characters. -/
def filterWordChars (v : Str) : Str := v.filter isWordChar

/-- Python `re.sub(r"\WOF\W", "", v)`: drop every `OF` delimited by non-word
characters (together with its two delimiters). -/
def isOFWindow : Str → Bool
  | a :: 'O' :: 'F' :: b :: _ => !isWordChar a && !isWordChar b
  | _ => false

def removeOFAux : Nat → Str → Str
  | _, [] => []
  | n + 1, _ :: rest => removeOFAux n rest
  | 0, c :: rest =>
    if isOFWindow (c :: rest) then removeOFAux 3 rest
    else c :: removeOFAux 0 rest

def removeOFDelim (v : Str) : Str := removeOFAux 0 v

/-- Python `v.split(",")`. -/
def splitComma : Str → List Str
  | [] => [[]]
  | c :: rest =>
    if c == ',' then [] :: splitComma rest
    else
      match splitComma rest with
      | [] => [[c]]
      | h :: t => (c :: h) :: t

/-- Digits of a numeral string to a number (the string is assumed
all-digits; callers check `isdigit` first, as the source does). -/
def digitsToNat (s : Str) : Nat := s.foldl (fun acc c => acc * 10 + (c.toNat - 48)) 0

/-- Python `int(s)` on a string: optional surrounding spaces, optional sign,
then decimal digits; anything else raises `ValueError` (here: `none`).
Python's underscore digit grouping ("1_0") and non-ASCII digits are not
modelled; no type-name string discussed by the spec uses them. -/
def pyIntDigits (ds : Str) : Option Nat :=
  if !ds.isEmpty && ds.all Char.isDigit then some (digitsToNat ds) else none

def trimSpaces (s : Str) : Str :=
  ((s.dropWhile (fun c => c == ' ')).reverse.dropWhile (fun c => c == ' ')).reverse

def pyInt (s : Str) : Option Int :=
  match trimSpaces s with
  | '+' :: ds => (pyIntDigits ds).map (fun n => (n : Int))
  | '-' :: ds => (pyIntDigits ds).map (fun n => -(n : Int))
  | ds => (pyIntDigits ds).map (fun n => (n : Int))

/-! ## The logical type model

Polars dtypes as used by `convert.py` / `database.py`.  The Python source
distinguishes dtype *classes* (`Decimal`, `Datetime`, `Duration`, `List`
used as unparameterized values) from dtype *instances* (`Decimal(10,2)`,
`Datetime("us")`, `List(Int64)`); both occur as values, so both get
constructors here. -/

inductive TimeUnit
  | ms | us | ns
deriving DecidableEq, Repr

inductive Dtype
  | int8 | int16 | int32 | int64
  | uint8 | uint16 | uint32 | uint64
  | float32 | float64
  | boolean | binary | string
  | date | time
  | datetimeCls
  | datetime (tu : TimeUnit) (tz : Option Str)
  | durationCls
  | duration (tu : TimeUnit)
  | decimalCls
  | decimal (precision : Option Int) (scale : Option Int)
  | listCls
  | list (inner : Dtype)
  | arrayCls | structCls | categorical | objectT | null | unknown
deriving DecidableEq, Repr

/-- Python exceptions that the embedded functions can raise. -/
inductive PyErr
  /-- the final `raise ValueError(f"cannot infer dtype from ...")` of
  `_infer_dtype_from_database_typename` -/
  | valueErrUnmatched
  /-- `ValueError` raised by `int(...)` on a non-numeric string -/
  | valueErrIntParse
  /-- `ValueError` raised by unpacking `modifier.split(",")` into two names
  when the split does not have exactly two parts -/
  | valueErrUnpack
  /-- `IndexError` raised by `value[0]` on an empty string -/
  | indexErr
deriving DecidableEq, Repr

instance {ε α : Type} [DecidableEq ε] [DecidableEq α] : DecidableEq (Except ε α) := fun a b =>
  match a, b with
  | .ok x, .ok y =>
    match decEq x y with
    | isTrue h => isTrue (h ▸ rfl)
    | isFalse h => isFalse (fun hc => h (Except.ok.inj hc))
  | .error x, .error y =>
    match decEq x y with
    | isTrue h => isTrue (h ▸ rfl)
    | isFalse h => isFalse (fun hc => h (Except.error.inj hc))
  | .ok _, .error _ => isFalse (fun hc => Except.noConfusion hc)
  | .error _, .ok _ => isFalse (fun hc => Except.noConfusion hc)

/-! ## Database type-name inference
(`_infer_dtype_from_database_typename`, convert.py lines 160-297) -/

def isMod1Char (c : Char) : Bool := isWordChar c || c == ',' || c == ':' || c == ' '

def isMod2Char (c : Char) : Bool :=
  isWordChar c || c == ',' || c == ']' || c == '[' || c == ':' || c == ' '

/-- Scan for `re.search(r"\([\w,: ]+\)$", v)`: the input is the reverse of
`v` with the final `)` removed; succeed on reaching `(` after at least one
class character. -/
def scanParen : Str → Bool → Bool
  | [], _ => false
  | c :: rest, seen =>
    if c == '(' then seen
    else if isMod1Char c then scanParen rest true
    else false

def parenModMatch (v : Str) : Bool :=
  match v.reverse with
  | ')' :: rest => scanParen rest false
  | _ => false

/-- Scan for `re.search(r"\[[\w,\]\[: ]+]$", v)` (the class includes both
brackets, so an inner `[` may either close the match or be consumed). -/
def scanBracket : Str → Bool → Bool
  | [], _ => false
  | c :: rest, seen =>
    if c == '[' then seen || scanBracket rest true
    else if isMod2Char c then scanBracket rest true
    else false

def bracketModMatch (v : Str) : Bool :=
  match v.reverse with
  | ']' :: rest => scanBracket rest false
  | _ => false

/-- Python `v.split(ch)[0]`: the part before the first `ch`. -/
def beforeChar (ch : Char) : Str → Str
  | [] => []
  | d :: rest => if d == ch then [] else d :: beforeChar ch rest

/-- Everything after the first `ch` (used for `v[v.find(ch) + 1 :]`). -/
def afterChar (ch : Char) : Str → Str
  | [] => []
  | d :: rest => if d == ch then rest else afterChar ch rest

/-- Modifier extraction of `_infer_dtype_from_database_typename` (lines
172-182): the optional trailing `( ... )` or `[ ... ]` group becomes the
modifier (`v[v.find(bracket) + 1 : -1]`) and the name is truncated at the
first opening bracket (`v.split(bracket)[0]`). -/
def extractModifier (v : Str) : Str × Str :=
  if parenModMatch v then (beforeChar '(' v, (afterChar '(' v).dropLast)
  else if (!(hasPfx ("<".data) v || hasPfx (">".data) v) && bracketModMatch v)
      || hasSfx ("[S]".data) v || hasSfx ("[MS]".data) v
      || hasSfx ("[US]".data) v || hasSfx ("[NS]".data) v then
    (beforeChar '[' v, (afterChar '[' v).dropLast)
  else (v, [])

/-- Normalisation of the raw cursor string: uppercase, strip the literal
substring `TYPE`, then extract the optional modifier. -/
def normalizeDb (raw : Str) : Str × Str := extractModifier (removeTYPE (strUpper raw))

def arrayCond (v : Str) : Bool :=
  hasSfx ("ARRAY".data) v || hasSfx ("LIST".data) v || hasSfx ("[]".data) v ||
  hasPfx ("ARRAY".data) v || hasPfx ("LIST".data) v || hasPfx ("[]".data) v

def stripAliases (v : Str) : Str :=
  replFirst ("[]".data) (replFirst ("LIST".data) (replFirst ("ARRAY".data) v))

def floatCond (v : Str) : Bool :=
  hasPfx ("FLOAT".data) v || containsSub ("DOUBLE".data) v || v == ("REAL".data)

def floatBranch (v m : Str) : Dtype :=
  if v == ("FLOAT4".data) || hasSfx ("16".data) v || hasSfx ("32".data) v
      || m == ("16".data) || m == ("32".data) then
    .float32
  else .float64

def integerCond (v : Str) : Bool :=
  !containsSub ("INTERVAL".data) v &&
    (hasPfx ("INT".data) v || hasPfx ("UINT".data) v || hasPfx ("UNSIGNED".data) v ||
     hasSfx ("INT".data) v || hasSfx ("SERIAL".data) v ||
     containsSub ("INTEGER".data) v || v == ("ROWID".data))

/-- Bit width derived from substrings of the name (lines 229-238). -/
def szFromName (v : Str) : Option Nat :=
  if containsSub ("LARGE".data) v || hasPfx ("BIG".data) v || v == ("INT8".data) then some 64
  else if containsSub ("MEDIUM".data) v || v == ("INT4".data) || v == ("SERIAL".data) then some 32
  else if containsSub ("SMALL".data) v || v == ("INT2".data) then some 16
  else if containsSub ("TINY".data) v then some 8
  else none

/-- Fall back to the numeric modifier when the name gives no width
(lines 240-242). -/
def effSz (v m : Str) : Option Nat :=
  match szFromName v with
  | some n => some n
  | none => if !m.isEmpty && m.all Char.isDigit then some (digitsToNat m) else none

def unsignedCond (v : Str) : Bool :=
  (containsSub ("U".data) v && !containsSub ("MEDIUM".data) v) ||
    containsSub ("UNSIGNED".data) v || v == ("ROWID".data)

/-- Embedding of `_integer_dtype_from_nbits` (convert.py lines 300-320). -/
def integerDtypeFromNbits (bits : Option Nat) (unsigned : Bool) (dflt : Option Dtype) :
    Option Dtype :=
  let tbl : Option Dtype :=
    match bits, unsigned with
    | some 8, false => some .int8
    | some 8, true => some .uint8
    | some 16, false => some .int16
    | some 16, true => some .uint16
    | some 32, false => some .int32
    | some 32, true => some .uint32
    | some 64, false => some .int64
    | some 64, true => some .uint64
    | _, _ => none
  match tbl with
  | none => dflt
  | some d => some d

def integerBranch (v m : Str) : Option Dtype :=
  if unsignedCond v then integerDtypeFromNbits (effSz v m) true (some .uint64)
  else integerDtypeFromNbits (effSz v m) false (some .int64)

def decimalCond (v : Str) : Bool :=
  containsSub ("DECIMAL".data) v || containsSub ("NUMERIC".data) v

/-- Decimal/numeric classification (lines 252-258); `int(...)` on either
part of the modifier and the two-name unpacking can raise `ValueError`. -/
def decimalBranch (v m : Str) : Except PyErr Dtype :=
  if m.contains ',' then
    match splitComma m with
    | [p, s] =>
      match pyInt p, pyInt s with
      | some a, some b => .ok (.decimal (some a) (some b))
      | _, _ => .error .valueErrIntParse
    | _ => .error .valueErrUnpack
  else .ok (if containsSub ("DECIMAL".data) v then .decimalCls else .float64)

def stringCond (v : Str) : Bool :=
  containsSub ("VARCHAR".data) v || containsSub ("STRING".data) v ||
  containsSub ("TEXT".data) v || containsSub ("UNICODE".data) v ||
  hasPfx ("STR".data) v || hasPfx ("CHAR".data) v || hasPfx ("NCHAR".data) v ||
  hasPfx ("UTF".data) v ||
  hasSfx ("_UTF8".data) v || hasSfx ("_UTF16".data) v || hasSfx ("_UTF32".data) v

def binaryCond (v : Str) : Bool :=
  v == ("BYTEA".data) || v == ("BYTES".data) || v == ("BLOB".data) ||
  v == ("CLOB".data) || v == ("BINARY".data)

def boolCond (v : Str) : Bool := hasPfx ("BOOL".data) v

def datetimeCond (v : Str) : Bool :=
  (hasPfx ("DATETIME".data) v || hasPfx ("TIMESTAMP".data) v) && !hasSfx ("[D]".data) v

def tzMention (v : Str) : Bool :=
  containsSub ("TZ".data) (removeSpaces v) || containsSub ("TIMEZONE".data) (removeSpaces v)

def withoutMention (v : Str) : Bool := containsSub ("WITHOUT".data) v

/-- Embedding of `_timeunit_from_precision` (convert.py lines 142-157), restricted to its
string-typed uses in this file (the modifier is always a string). -/
def tuFromNat (n : Nat) : TimeUnit :=
  let m := min (max 3 ((n + 2) / 3 * 3)) 9
  if m = 3 then .ms else if m = 6 then .us else .ns

def timeunitFromPrecision (p : Str) : Option TimeUnit :=
  if p.isEmpty then none
  else if p.all Char.isDigit then some (tuFromNat (digitsToNat p))
  else
    let low := p.map Char.toLower
    if low == ("s".data) || low == ("ms".data) then some .ms
    else if low == ("us".data) then some .us
    else if low == ("ns".data) then some .ns
    else none

/-- Time unit of the datetime branch (line 281-282): the modifier when
present (falling back to `us` when it does not resolve), else `us`. -/
def datetimeUnit (m : Str) : TimeUnit :=
  if m.isEmpty then .us else (timeunitFromPrecision m).getD .us

def durationCond (v : Str) : Bool :=
  (v.filter (fun c => !c.isDigit)) == ("INTERVAL".data) ||
  (v.filter (fun c => !c.isDigit)) == ("TIMEDELTA".data)

def dateCond (v : Str) : Bool :=
  v == ("DATE".data) || v == ("DATE32".data) || v == ("DATE64".data)

def timeCond (v : Str) : Bool :=
  v == ("TIME".data) || v == ("TIME32".data) || v == ("TIME64".data)

/-- The final `if not dtype and raise_unmatched: raise ValueError(...)`
(lines 293-297). -/
def finalizeDb (raiseU : Bool) (d : Option Dtype) : Except PyErr (Option Dtype) :=
  match d with
  | none => if raiseU then .error .valueErrUnmatched else .ok none
  | some t => .ok (some t)

/-- Array-branch element lookup (lines 184-210).  `recur` stands for the
recursive call `_infer_dtype_from_database_typename(..., raise_unmatched=False)`.
When the stripped name and the modifier are both empty, the source evaluates
`value[0]` on an empty string, which raises `IndexError`. -/
def arrayInnerName (c : Char) (rest : Str) : Str :=
  if c == '<' && (c :: rest).getLast? == some '>' then rest.dropLast
  else filterWordChars (removeOFDelim (c :: rest))

def arrayNested (recur : Str → Except PyErr (Option Dtype)) (v m : Str) :
    Except PyErr (Option Dtype) :=
  match stripAliases v with
  | [] => if !m.isEmpty then recur m else .error .indexErr
  | c :: rest =>
    match recur (arrayInnerName c rest) with
    | .error e => .error e
    | .ok (some d) => .ok (some d)
    | .ok none => if !m.isEmpty then recur m else .ok none

/-- One classification pass of `_infer_dtype_from_database_typename` over the
normalised name `v` and modifier `m`, with `recur` standing for the
recursive call (always made with `raise_unmatched=False`).  The branch order
is exactly the elif chain of the source.  A timezone-bearing datetime name
returns `None` directly (line 280), bypassing the final raise. -/
def classifyStep (recur : Str → Except PyErr (Option Dtype)) (v m : Str) (raiseU : Bool) :
    Except PyErr (Option Dtype) :=
  if arrayCond v then
    match arrayNested recur v m with
    | .error e => .error e
    | .ok nested => finalizeDb raiseU (nested.map Dtype.list)
  else if floatCond v then finalizeDb raiseU (some (floatBranch v m))
  else if integerCond v then finalizeDb raiseU (integerBranch v m)
  else if decimalCond v then
    match decimalBranch v m with
    | .error e => .error e
    | .ok d => finalizeDb raiseU (some d)
  else if stringCond v then finalizeDb raiseU (some .string)
  else if binaryCond v then finalizeDb raiseU (some .binary)
  else if boolCond v then finalizeDb raiseU (some .boolean)
  else if datetimeCond v then
    if tzMention v && !withoutMention v then .ok none
    else finalizeDb raiseU (some (.datetime (datetimeUnit m) none))
  else if durationCond v then finalizeDb raiseU (some .durationCls)
  else if dateCond v then finalizeDb raiseU (some .date)
  else if timeCond v then finalizeDb raiseU (some .time)
  else finalizeDb raiseU none

/-- Fuelled form of `_infer_dtype_from_database_typename`.  Each recursive
call of the source strictly shortens its string argument (the modifier and
the stripped array remainder each lose at least the two bracket/marker
characters), so fuel `length + 1` at the top level always suffices and the
fuel-exhausted branch is unreachable from `inferDb`. -/
def inferDbF : Nat → Str → Bool → Except PyErr (Option Dtype)
  | 0, _, _ => .ok none
  | fuel + 1, raw, raiseU =>
    classifyStep (fun u => inferDbF fuel u false)
      (normalizeDb raw).1 (normalizeDb raw).2 raiseU

/-- Embedding of `_infer_dtype_from_database_typename(raw, raise_unmatched=raiseU)`. -/
def inferDb (raw : Str) (raiseU : Bool) : Except PyErr (Option Dtype) :=
  inferDbF (raw.length + 1) raw raiseU

/-! ## Cursor description type-override injection
(`ConnectionExecutor._inject_type_overrides`, database.py lines 343-396, and
`_map_py_type_to_dtype`, convert.py lines 90-139) -/

/-- Python classes that can appear as a cursor `type_code` and that
`_map_py_type_to_dtype` recognises; `pyOtherClass` stands for any class the
function does not map (it raises `TypeError` for those, which the caller
suppresses).  Generic aliases (`list[int]`-style) do not occur as cursor
type codes and are not modelled. -/
inductive PyType
  | pyFloat | pyInt | pyStr | pyBool
  | pyDatetime | pyDate | pyTimedelta | pyTime
  | pyList | pyTuple | pyDecimal | pyBytes | pyObject | pyNoneType
  | pyOtherClass
deriving DecidableEq, Repr

/-- Embedding of `_map_py_type_to_dtype` (convert.py lines 90-139); `none` models the
final `raise TypeError`. -/
def mapPyTypeToDtype : PyType → Option Dtype
  | .pyFloat => some .float64
  | .pyInt => some .int64
  | .pyStr => some .string
  | .pyBool => some .boolean
  | .pyDatetime => some (.datetime .us none)
  | .pyDate => some .date
  | .pyTimedelta => some (.duration .us)
  | .pyTime => some .time
  | .pyList => some .listCls
  | .pyTuple => some .listCls
  | .pyDecimal => some .decimalCls
  | .pyBytes => some .binary
  | .pyObject => some .objectT
  | .pyNoneType => some .null
  | .pyOtherClass => none

/-- A cursor `type_code`: a Python class, a string, or anything else
(driver-specific codes, enums, ...). -/
inductive TypeCode
  | pyClass (t : PyType)
  | strCode (s : Str)
  | otherCode
deriving DecidableEq, Repr

/-- One entry of `cursor.description`:
`(type_code, display_size, internal_size, precision, scale, null_ok)`.
`precision`/`scale` are `some n` exactly when the driver supplies a Python
`int` there (the source checks `isinstance(..., int)`). -/
structure ColDesc where
  typeCode : TypeCode
  displaySize : Option Int := none
  internalSize : Option Int := none
  precision : Option Int := none
  scale : Option Int := none
  nullOk : Option Bool := none
deriving DecidableEq, Repr

def isIntegerDtype : Dtype → Bool
  | .int8 | .int16 | .int32 | .int64 | .uint8 | .uint16 | .uint32 | .uint64 => true
  | _ => false

def isUnsignedIntegerDtype : Dtype → Bool
  | .uint8 | .uint16 | .uint32 | .uint64 => true
  | _ => false

/-- Polars dtype equality against the `Decimal` class: a `Decimal` instance
compares equal to the class (polars `DataType.__eq__` compares base types
when the other side is a dtype class). -/
def eqDecimalClass : Dtype → Bool
  | .decimalCls | .decimal _ _ => true
  | _ => false

/-- The refinement block of `_inject_type_overrides` (lines 372-391): use
`internal_size` to narrow floats and integers and `precision`/`scale` to
parametrise a decimal. -/
def refineDtype (d : Dtype) (c : ColDesc) : Dtype :=
  if d == .float64 && c.internalSize == some 4 then .float32
  else if isIntegerDtype d &&
      (c.internalSize == some 2 || c.internalSize == some 4 || c.internalSize == some 8) then
    let bits := (c.internalSize.getD 0).toNat * 8
    (integerDtypeFromNbits (some bits) (isUnsignedIntegerDtype d) (some d)).getD d
  else
    match c.precision, c.scale with
    | some p, some s =>
      if eqDecimalClass d && decide (p ≤ 38) && decide (s ≤ 38) then .decimal (some p) (some s)
      else d
    | _, _ => d

/-- Inference step for one column (lines 360-370).  The source assigns into
a `dtype` variable that is declared once, before the loop; when the
`type_code` is neither a class nor a string — or is an unmapped class,
whose `TypeError` is suppressed — the variable keeps the value `carry`
left over from the previously processed column. -/
def columnStep (carry : Option Dtype) (c : ColDesc) : Except PyErr (Option Dtype) :=
  match c.typeCode with
  | .pyClass t =>
    .ok (match mapPyTypeToDtype t with
         | some d => some d
         | none => carry)
  | .strCode s => inferDb s false
  | .otherCode => .ok carry

/-- Lookup in a Python-dict-like association list. -/
def alookup {α : Type} (k : Str) : List (Str × α) → Option α
  | [] => none
  | (k2, v) :: rest => if k = k2 then some v else alookup k rest

def aMem {α : Type} (k : Str) (l : List (Str × α)) : Bool := (alookup k l).isSome

/-- Loop of `_inject_type_overrides` over `description.items()`, threading
the mutable `schema_overrides` dict (entries are only ever added, so the
dict is an append-only association list here) and the loop-carried `dtype`
variable. -/
def injectGo : List (Str × Option ColDesc) → List (Str × Dtype) → Option Dtype →
    Except PyErr (List (Str × Dtype))
  | [], so, _ => .ok so
  | (_, none) :: rest, so, carry => injectGo rest so carry
  | (nm, some c) :: rest, so, carry =>
    if aMem nm so then injectGo rest so carry
    else
      match columnStep carry c with
      | .error e => .error e
      | .ok none => injectGo rest so none
      | .ok (some d) =>
        let d2 := refineDtype d c
        injectGo rest (so ++ [(nm, d2)]) (some d2)

/-- Embedding of `_inject_type_overrides(description, schema_overrides)`. -/
def injectTypeOverrides (description : List (Str × Option ColDesc))
    (schemaOverrides : List (Str × Dtype)) : Except PyErr (List (Str × Dtype)) :=
  injectGo description schemaOverrides none

/-- The cursor description of the end-to-end scenario of the spec:
`[("id", "INTEGER", internal_size=4), ("name", "VARCHAR(255)", None),
("amt", "NUMERIC", precision=10, scale=2)]`. -/
def endToEndDesc : List (Str × Option ColDesc) :=
  [(("id".data), some { typeCode := .strCode ("INTEGER".data), internalSize := some 4 }),
   (("name".data), some { typeCode := .strCode ("VARCHAR(255)".data) }),
   (("amt".data), some { typeCode := .strCode ("NUMERIC".data),
                         precision := some 10, scale := some 2 })]

/-! ## Short textual representation
(`dtype_short_repr_to_dtype`, convert.py lines 614-636, and the
`REPR_TO_DTYPE` table, lines 501-514) -/

/-- Modelled from the spec: the canonical short base text of each dtype
class.  The source builds `REPR_TO_DTYPE` from `_dtype_str_repr`, a native
(Rust) function that is not part of the excerpted sources; the spec
describes the table as "deriving canonical text for every known type
variant and memoizing the reverse mapping".  `Unknown` is absent because
the comprehension in the source filters through `is_polars_dtype`, which
rejects `Unknown` by default (convert.py lines 323-332). -/
def REPR_TO_DTYPE : List (Str × Dtype) :=
  [(("i8".data), .int8), (("i16".data), .int16), (("i32".data), .int32), (("i64".data), .int64),
   (("u8".data), .uint8), (("u16".data), .uint16), (("u32".data), .uint32),
   (("u64".data), .uint64),
   (("f32".data), .float32), (("f64".data), .float64),
   (("bool".data), .boolean), (("binary".data), .binary), (("str".data), .string),
   (("date".data), .date), (("time".data), .time),
   (("datetime".data), .datetimeCls), (("duration".data), .durationCls),
   (("decimal".data), .decimalCls), (("list".data), .listCls), (("array".data), .arrayCls),
   (("struct".data), .structCls), (("cat".data), .categorical),
   (("object".data), .objectT), (("null".data), .null)]

/-- Modelled from the spec: the canonical short-form text of a logical type,
`TypeName` or `TypeName[arg1, arg2]` (spec section 6), with the time-unit
symbol using the micro sign that the parser normalises to ASCII `u`
(spec section 4.3), and decimal parameters rendered positionally as
`precision,scale` with `*` for an unresolved parameter. -/
def tuCanonical : TimeUnit → Str
  | .ms => "ms".data
  | .us => "μs".data
  | .ns => "ns".data

def intCanonical (i : Int) : Str :=
  if i < 0 then '-' :: Nat.toDigits 10 i.natAbs else Nat.toDigits 10 i.toNat

def canonicalTextForType : Dtype → Str
  | .int8 => "i8".data
  | .int16 => "i16".data
  | .int32 => "i32".data
  | .int64 => "i64".data
  | .uint8 => "u8".data
  | .uint16 => "u16".data
  | .uint32 => "u32".data
  | .uint64 => "u64".data
  | .float32 => "f32".data
  | .float64 => "f64".data
  | .boolean => "bool".data
  | .binary => "binary".data
  | .string => "str".data
  | .date => "date".data
  | .time => "time".data
  | .datetimeCls => "datetime".data
  | .datetime tu none => ("datetime[".data) ++ tuCanonical tu ++ ("]".data)
  | .datetime tu (some tz) =>
    ("datetime[".data) ++ tuCanonical tu ++ (", ".data) ++ tz ++ ("]".data)
  | .durationCls => "duration".data
  | .duration tu => ("duration[".data) ++ tuCanonical tu ++ ("]".data)
  | .decimalCls => "decimal".data
  | .decimal p s =>
    ("decimal[".data) ++ (match p with | some a => intCanonical a | none => "*".data)
      ++ (",".data) ++ (match s with | some b => intCanonical b | none => "*".data)
      ++ ("]".data)
  | .listCls => "list".data
  | .list inner => ("list[".data) ++ canonicalTextForType inner ++ ("]".data)
  | .arrayCls => "array".data
  | .structCls => "struct".data
  | .categorical => "cat".data
  | .objectT => "object".data
  | .null => "null".data
  | .unknown => "unknown".data

/-- The regular expression `^(\w+)(?:\[(.+)\])?$` of
`dtype_short_repr_to_dtype`: a word-character base name, optionally
followed by a bracketed, non-empty argument string (in which `.` does not
match a newline). -/
def shortReprBase (s : Str) : Str := s.takeWhile isWordChar

def shortReprRest (s : Str) : Str := s.drop (shortReprBase s).length

def shortReprMatch (s : Str) : Option (Str × Option Str) :=
  if (shortReprBase s).isEmpty then none
  else if (shortReprRest s).isEmpty then some (shortReprBase s, none)
  else if (shortReprRest s).head? = some '[' ∧ (shortReprRest s).getLast? = some ']' then
    if !(((shortReprRest s).drop 1).dropLast.isEmpty)
        && ((shortReprRest s).drop 1).dropLast.all (fun c => c != '\n') then
      some (shortReprBase s, some (((shortReprRest s).drop 1).dropLast))
    else none
  else none

/-- Python `s.strip("'\" ")`. -/
def stripQuoteSpace (s : Str) : Str :=
  let f := fun c => c == '\'' || c == '"' || c == ' '
  ((s.dropWhile f).reverse.dropWhile f).reverse

/-- Python `subtype.replace("μs", "us")`, with the same skip-counter scheme
as `removeTYPEAux`. -/
def normMicroAux : Nat → Str → Str
  | _, [] => []
  | n + 1, _ :: rest => normMicroAux n rest
  | 0, c :: rest =>
    if hasPfx ("μs".data) (c :: rest) then 'u' :: 's' :: normMicroAux 1 rest
    else c :: normMicroAux 0 rest

def normMicro (s : Str) : Str := normMicroAux 0 s

/-- The argument preprocessing of `dtype_short_repr_to_dtype` (line 630-632):
normalise the micro sign, split on commas, strip quote/space padding. -/
def splitArgs (sub : Str) : List Str := (splitComma (normMicro sub)).map stripQuoteSpace

def parseTimeUnitArg (s : Str) : Option TimeUnit :=
  if s == ("ms".data) then some .ms
  else if s == ("us".data) then some .us
  else if s == ("ns".data) then some .ns
  else none

/-- Modelled from the spec: applying a dtype class to parsed textual
arguments (`dtype(*subtype)`).  The datatype constructors live in
`polars/datatypes/classes.py`, which is not among the excerpted sources;
per the spec (section 4.3) a parse failure on argument construction is
caught and yields the un-parameterized base type, so every failure is
modelled as `none`. -/
def applyDtypeArgs : Dtype → List Str → Option Dtype
  | .datetimeCls, [tu] => (parseTimeUnitArg tu).map (fun u => .datetime u none)
  | .datetimeCls, [tu, tz] => (parseTimeUnitArg tu).map (fun u => .datetime u (some tz))
  | .durationCls, [tu] => (parseTimeUnitArg tu).map .duration
  | _, _ => none

/-- Embedding of `dtype_short_repr_to_dtype` (convert.py lines 614-636).  When the base
type is `Decimal` the arguments are interpreted as `(None, int(args))`; a
`ValueError` anywhere in argument construction falls through to returning
the un-parameterized base type. -/
def dtypeShortReprToDtype (s? : Option Str) : Option Dtype :=
  match s? with
  | none => none
  | some s =>
    match shortReprMatch s with
    | none => none
    | some (base, sub?) =>
      match alookup base REPR_TO_DTYPE with
      | none => none
      | some d =>
        match sub? with
        | none => some d
        | some sub =>
          if d = .decimalCls then
            match pyInt sub with
            | some n => some (.decimal none (some n))
            | none => some d
          else
            match applyDtypeArgs d (splitArgs sub) with
            | some t => some t
            | none => some d

/-! ## Strict and lenient value coercion (spec section 4.5)

Modelled from the spec: the coercion itself is implemented by
`PySeries.new_from_any_values_and_dtype` in native (Rust) code that is not
among the excerpted sources; only its unit tests
(`tests/unit/constructors/test_any_value_fallbacks.py`) are.  The model
covers coercion into `Int64`: strict mode raises `SchemaError` (message
containing "unexpected value") for any non-`Int64` value, lenient mode
converts best-effort and produces a null where no reasonable conversion
exists (spec section 4.5; test rows for `pl.Int64`). -/

inductive PyVal
  | vNone
  | vBool (b : Bool)
  | vInt (n : Int)
  | vStr (s : Str)
deriving DecidableEq, Repr

inductive CoerceErr
  | schemaError (msg : Str)
deriving DecidableEq, Repr

def int64MismatchMsg : Str :=
  "unexpected value while building Series of type Int64".data

/-- Lenient conversion of one non-null, non-integer value into `Int64`:
booleans become 0/1, numeric text parses, anything else nulls out. -/
def coerceInt64Lenient : PyVal → Option Int
  | .vNone => none
  | .vBool b => some (if b then 1 else 0)
  | .vInt n => some n
  | .vStr s => pyInt s

def coerceInt64 (strict : Bool) (v : PyVal) : Except CoerceErr (Option Int) :=
  match v with
  | .vNone => .ok none
  | .vInt n => .ok (some n)
  | other =>
    if strict then .error (.schemaError int64MismatchMsg)
    else .ok (coerceInt64Lenient other)

/-- Batch coercion: lenient mode handles each value independently (one bad
value nulls out without aborting the batch); strict mode propagates the
first `SchemaError`. -/
def coerceInt64Batch (strict : Bool) : List PyVal → Except CoerceErr (List (Option Int))
  | [] => .ok []
  | v :: rest =>
    match coerceInt64 strict v with
    | .error e => .error e
    | .ok r =>
      match coerceInt64Batch strict rest with
      | .error e => .error e
      | .ok rs => .ok (r :: rs)

/-! ## Helper lemmas -/

theorem finalizeDb_false (d : Option Dtype) : finalizeDb false d = .ok d := by
  cases d <;> rfl

theorem decimalBranch_err (v m : Str) (e : PyErr) (h : decimalBranch v m = .error e) :
    e = .valueErrIntParse ∨ e = .valueErrUnpack := by
  unfold decimalBranch at h
  split at h
  · split at h
    · split at h
      · exact absurd h (by simp)
      · exact Or.inl (Except.error.inj h).symm
    · exact Or.inr (Except.error.inj h).symm
  · exact absurd h (by simp)

theorem arrayNested_err (recur : Str → Except PyErr (Option Dtype)) (v m : Str) (e : PyErr)
    (h : arrayNested recur v m = .error e) :
    e = .indexErr ∨ ∃ w, recur w = .error e := by
  unfold arrayNested at h
  split at h
  · split at h
    · exact Or.inr ⟨m, h⟩
    · exact Or.inl (Except.error.inj h).symm
  · rename_i ch tl hsplit
    split at h
    · rename_i e2 heq
      exact Or.inr ⟨arrayInnerName ch tl, heq.trans h⟩
    · exact absurd h (by simp)
    · split at h
      · exact Or.inr ⟨m, h⟩
      · exact absurd h (by simp)

set_option maxHeartbeats 2000000 in
theorem classifyStep_false (recur : Str → Except PyErr (Option Dtype)) (v m : Str)
    (hrec : ∀ w, recur w ≠ .error .valueErrUnmatched) :
    classifyStep recur v m false ≠ .error .valueErrUnmatched := by
  unfold classifyStep
  repeat' split
  all_goals intro hc
  all_goals try exact Except.noConfusion ((finalizeDb_false _) ▸ hc)
  · rename_i e heq
    have he := Except.error.inj hc
    subst he
    rcases arrayNested_err recur v m _ heq with h1 | ⟨w, hw⟩
    · exact PyErr.noConfusion h1
    · exact hrec w hw
  · rename_i e heq
    have he := Except.error.inj hc
    subst he
    rcases decimalBranch_err v m _ heq with h1 | h1
    · exact PyErr.noConfusion h1
    · exact PyErr.noConfusion h1

theorem inferDbF_succ (fuel : Nat) (raw : Str) (raiseU : Bool) :
    inferDbF (fuel + 1) raw raiseU =
      classifyStep (fun u => inferDbF fuel u false)
        (normalizeDb raw).1 (normalizeDb raw).2 raiseU := rfl

theorem inferDbF_false_ne_unmatched :
    ∀ (fuel : Nat) (w : Str), inferDbF fuel w false ≠ .error .valueErrUnmatched := by
  intro fuel
  induction fuel with
  | zero => intro w hc; exact Except.noConfusion hc
  | succ n ih =>
    intro w
    rw [inferDbF_succ]
    exact classifyStep_false _ _ _ (fun u => ih u)

theorem classify_datetime_tz_none (recur : Str → Except PyErr (Option Dtype))
    (v m : Str) (raiseU : Bool)
    (h1 : arrayCond v = false) (h2 : floatCond v = false) (h3 : integerCond v = false)
    (h4 : decimalCond v = false) (h5 : stringCond v = false) (h6 : binaryCond v = false)
    (h7 : boolCond v = false) (h8 : datetimeCond v = true)
    (htz : tzMention v = true) (hwo : withoutMention v = false) :
    classifyStep recur v m raiseU = .ok none := by
  simp [classifyStep, h1, h2, h3, h4, h5, h6, h7, h8, htz, hwo]

theorem classify_array_list (recur : Str → Except PyErr (Option Dtype))
    (v m : Str) (raiseU : Bool) (d : Dtype)
    (h1 : arrayCond v = true)
    (h : classifyStep recur v m raiseU = .ok (some d)) : ∃ inner, d = .list inner := by
  unfold classifyStep at h
  rw [h1] at h
  simp only [if_true] at h
  rcases hA : arrayNested recur v m with e | nested
  · rw [hA] at h
    exact Except.noConfusion h
  · rw [hA] at h
    cases nested with
    | none =>
      unfold finalizeDb at h
      cases raiseU with
      | true => exact Except.noConfusion h
      | false => exact Option.noConfusion (Except.ok.inj h)
    | some t =>
      have := Except.ok.inj h
      exact ⟨t, (Option.some.inj this).symm⟩

theorem alookup_append {α : Type} (k : Str) (a b : List (Str × α)) :
    alookup k (a ++ b) =
      match alookup k a with
      | some v => some v
      | none => alookup k b := by
  induction a with
  | nil => simp [alookup]
  | cons p rest ih =>
    rcases p with ⟨k2, v⟩
    by_cases hk : k = k2
    · simp [alookup, hk]
    · simp [alookup, hk, ih]

theorem aMem_append_false {α : Type} (k : Str) (a b : List (Str × α))
    (h : aMem k (a ++ b) = false) : aMem k a = false := by
  unfold aMem at *
  rw [alookup_append] at h
  rcases ha : alookup k a with _ | v
  · rfl
  · rw [ha] at h
    exact absurd h (by simp)

theorem injectGo_extends :
    ∀ (desc : List (Str × Option ColDesc)) (so : List (Str × Dtype)) (carry : Option Dtype)
      (so2 : List (Str × Dtype)), injectGo desc so carry = .ok so2 →
      ∃ extra, so2 = so ++ extra ∧ ∀ k, aMem k extra = true → aMem k so = false := by
  intro desc
  induction desc with
  | nil =>
    intro so carry so2 h
    exact ⟨[], by simpa using (Except.ok.inj h).symm, by simp [aMem, alookup]⟩
  | cons p rest ih =>
    rcases p with ⟨nm, c?⟩
    intro so carry so2 h
    cases c? with
    | none => exact ih so carry so2 h
    | some c =>
      unfold injectGo at h
      split at h
      · exact ih so carry so2 h
      · rename_i hmem
        have hmemf : aMem nm so = false := by
          revert hmem
          cases aMem nm so <;> simp
        split at h
        · exact Except.noConfusion h
        · exact ih so none so2 h
        · rename_i d hcs
          rcases ih _ _ _ h with ⟨extra, hso2, hfresh⟩
          refine ⟨(nm, refineDtype d c) :: extra, ?_, ?_⟩
          · rw [hso2, List.append_assoc]
            rfl
          · intro k hk
            unfold aMem alookup at hk
            split at hk
            · rename_i hknm
              rw [hknm]
              exact hmemf
            · exact aMem_append_false k so [(nm, refineDtype d c)] (hfresh k hk)

theorem takeWhile_append_stop (p : Char → Bool) (xs : Str) (y : Char) (ys : Str)
    (hxs : ∀ x ∈ xs, p x = true) (hy : p y = false) :
    (xs ++ y :: ys).takeWhile p = xs := by
  induction xs with
  | nil => simp [List.takeWhile_cons, hy]
  | cons a rest ih =>
    have ha : p a = true := hxs a (by simp)
    simp [List.takeWhile_cons, ha, ih (fun x hx => hxs x (by simp [hx]))]

theorem alookup_mem {α : Type} (k : Str) (l : List (Str × α)) (v : α)
    (h : alookup k l = some v) : (k, v) ∈ l := by
  induction l with
  | nil => exact Option.noConfusion h
  | cons p rest ih =>
    rcases p with ⟨k2, v2⟩
    unfold alookup at h
    split at h
    · rename_i hk
      have hv := Option.some.inj h
      subst hk hv
      exact List.mem_cons_self _ _
    · exact List.mem_cons_of_mem _ (ih h)

theorem repr_keys_wordlike :
    ∀ p ∈ REPR_TO_DTYPE, (p.1.all isWordChar = true ∧ p.1 ≠ []) := by decide

theorem shortReprMatch_concat (base args : Str)
    (hw : base.all isWordChar = true) (hne : base ≠ [])
    (ha : args ≠ []) (hn : args.all (fun c => c != '\n') = true) :
    shortReprMatch (base ++ '[' :: (args ++ [']'])) = some (base, some args) := by
  have hb : shortReprBase (base ++ '[' :: (args ++ [']'])) = base :=
    takeWhile_append_stop isWordChar base '[' (args ++ [']'])
      (fun x hx => List.all_eq_true.mp hw x hx) (by decide)
  have hr : shortReprRest (base ++ '[' :: (args ++ [']'])) = '[' :: (args ++ [']']) := by
    unfold shortReprRest
    rw [hb, List.drop_left]
  have hbe : base.isEmpty = false := by
    cases base with
    | nil => exact absurd rfl hne
    | cons b bs => rfl
  have hae : args.isEmpty = false := by
    cases args with
    | nil => exact absurd rfl ha
    | cons b bs => rfl
  have hlast : ('[' :: (args ++ [']']) : Str).getLast? = some ']' := by
    rw [show ('[' :: (args ++ [']']) : Str) = ('[' :: args) ++ [']'] by simp]
    exact List.getLast?_concat _
  have hdl : ((('[' :: (args ++ [']']) : Str)).drop 1).dropLast = args := by
    simp [List.dropLast_concat]
  unfold shortReprMatch
  rw [hb, hr, hbe, hlast, hdl]
  simp [hae, hn]

/-! ## Claim theorems -/

/-- C1 (counterexample): on the end-to-end cursor description the injection
yields Float64 for the `amt` column (a bare `NUMERIC` name, no
parenthesized modifier, infers Float64 and the precision/scale refinement
only applies to an inferred Decimal), so the claimed schema entry
`amt: Decimal(10,2)` is wrong. -/
theorem C1_counterexample :
    injectTypeOverrides endToEndDesc [] =
      .ok [(("id".data), .int32), (("name".data), .string), (("amt".data), .float64)]
    ∧ Dtype.float64 ≠ .decimal (some 10) (some 2) := by decide

/-- C1 (amended): for the cursor description with columns
`id : "INTEGER" (internal_size 4)`, `name : "VARCHAR(255)"` and
`amt : "NUMERIC" (precision 10, scale 2)` and an empty caller
`schema_overrides`, the type-override injection produces exactly the schema
`{id : Int32, name : String, amt : Float64}`. -/
theorem C1_amended :
    injectTypeOverrides endToEndDesc [] =
      .ok [(("id".data), .int32), (("name".data), .string), (("amt".data), .float64)] := by
  decide

/-- C2 (counterexample): with `raise_unmatched=False` the inference is
claimed never to raise, but on `"DECIMAL(P,S)"` it raises `ValueError`
from `int("P")`. -/
theorem C2_counterexample :
    inferDb ("DECIMAL(P,S)".data) false = .error .valueErrIntParse := by decide

/-- C2 (amended): with `raise_unmatched=False` the inference never raises
the unmatched-name `ValueError`, but it can still raise: a bare `"ARRAY"`
raises `IndexError` (empty remainder, no modifier), and a decimal modifier
with a comma raises `ValueError` when its parts are not integers or are
not exactly two; and with `raise_unmatched=True` a timezone-bearing
datetime name returns `None` without raising. -/
theorem C2_amended :
    (∀ w : Str, inferDb w false ≠ .error .valueErrUnmatched)
    ∧ inferDb ("ARRAY".data) false = .error .indexErr
    ∧ inferDb ("DECIMAL(1,2,3)".data) false = .error .valueErrUnpack
    ∧ inferDb ("TIMESTAMP WITH TIME ZONE".data) true = .ok none := by
  refine ⟨fun w => inferDbF_false_ne_unmatched _ w, by decide, by decide, by decide⟩

/-- C3 (counterexample): `"TINYINT UNSIGNED"` does not map to UInt8 — it
fails the integer entry rule (it neither starts with INT/UINT/UNSIGNED nor
ends with INT/SERIAL, does not contain INTEGER and is not ROWID), so no
rule matches. -/
theorem C3_counterexample :
    inferDb ("TINYINT UNSIGNED".data) false ≠ .ok (some .uint8) := by decide

/-- C3 (amended): `"TINYINT UNSIGNED"` yields no match (`None`);
`"BIGINT"` maps to Int64 and `"INT4"` to Int32 (while `"TINYINT"` gives
Int8 and `"UTINYINT"` UInt8); and when the width is indeterminate (no
width substring and no numeric modifier) the integer rule defaults to
Int64/UInt64 according to signedness. -/
theorem C3_amended :
    inferDb ("TINYINT UNSIGNED".data) false = .ok none
    ∧ inferDb ("BIGINT".data) false = .ok (some .int64)
    ∧ inferDb ("INT4".data) false = .ok (some .int32)
    ∧ inferDb ("TINYINT".data) false = .ok (some .int8)
    ∧ inferDb ("UTINYINT".data) false = .ok (some .uint8)
    ∧ ∀ v m : Str, effSz v m = none →
        integerBranch v m = some (if unsignedCond v then Dtype.uint64 else Dtype.int64) := by
  refine ⟨by decide, by decide, by decide, by decide, by decide, ?_⟩
  intro v m h
  unfold integerBranch
  cases hu : unsignedCond v <;> simp [h, integerDtypeFromNbits]

/-- C3 (witness): the default-width clause of the amended claim applied to
the name `"INT"` with empty modifier. -/
theorem C3_witness :
    effSz ("INT".data) [] = none
    ∧ integerBranch ("INT".data) [] =
        some (if unsignedCond ("INT".data) then Dtype.uint64 else Dtype.int64) :=
  ⟨rfl, C3_amended.2.2.2.2.2 ("INT".data) [] rfl⟩

/-- C4 (counterexample): the canonical text of `Decimal(10,2)` does not
parse back to `Decimal(10,2)`: the parser's Decimal special case applies
`int` to the whole argument string `"10,2"`, the `ValueError` is caught,
and the un-parameterized `Decimal` base class is returned instead. -/
theorem C4_counterexample :
    dtypeShortReprToDtype (some (canonicalTextForType (.decimal (some 10) (some 2))))
      ≠ some (Dtype.decimal (some 10) (some 2)) := by decide

/-- C4 (amended): parsing the canonical short-form text with the short-repr
parser returns the original type for every scalar type and for every
timezone-free `Datetime` and `Duration` instance, but a `Decimal` instance
with explicit precision and scale (such as `Decimal(10,2)`) parses back to
the un-parameterized `Decimal` base type. -/
theorem C4_amended :
    dtypeShortReprToDtype (some (canonicalTextForType .int8)) = some .int8
    ∧ dtypeShortReprToDtype (some (canonicalTextForType .int16)) = some .int16
    ∧ dtypeShortReprToDtype (some (canonicalTextForType .int32)) = some .int32
    ∧ dtypeShortReprToDtype (some (canonicalTextForType .int64)) = some .int64
    ∧ dtypeShortReprToDtype (some (canonicalTextForType .uint8)) = some .uint8
    ∧ dtypeShortReprToDtype (some (canonicalTextForType .uint16)) = some .uint16
    ∧ dtypeShortReprToDtype (some (canonicalTextForType .uint32)) = some .uint32
    ∧ dtypeShortReprToDtype (some (canonicalTextForType .uint64)) = some .uint64
    ∧ dtypeShortReprToDtype (some (canonicalTextForType .float32)) = some .float32
    ∧ dtypeShortReprToDtype (some (canonicalTextForType .float64)) = some .float64
    ∧ dtypeShortReprToDtype (some (canonicalTextForType .boolean)) = some .boolean
    ∧ dtypeShortReprToDtype (some (canonicalTextForType .binary)) = some .binary
    ∧ dtypeShortReprToDtype (some (canonicalTextForType .string)) = some .string
    ∧ dtypeShortReprToDtype (some (canonicalTextForType .date)) = some .date
    ∧ dtypeShortReprToDtype (some (canonicalTextForType .time)) = some .time
    ∧ dtypeShortReprToDtype (some (canonicalTextForType .objectT)) = some .objectT
    ∧ dtypeShortReprToDtype (some (canonicalTextForType .null)) = some .null
    ∧ dtypeShortReprToDtype (some (canonicalTextForType .categorical)) = some .categorical
    ∧ dtypeShortReprToDtype (some (canonicalTextForType (.datetime .ms none)))
        = some (.datetime .ms none)
    ∧ dtypeShortReprToDtype (some (canonicalTextForType (.datetime .us none)))
        = some (.datetime .us none)
    ∧ dtypeShortReprToDtype (some (canonicalTextForType (.datetime .ns none)))
        = some (.datetime .ns none)
    ∧ dtypeShortReprToDtype (some (canonicalTextForType (.duration .ms)))
        = some (.duration .ms)
    ∧ dtypeShortReprToDtype (some (canonicalTextForType (.duration .us)))
        = some (.duration .us)
    ∧ dtypeShortReprToDtype (some (canonicalTextForType (.duration .ns)))
        = some (.duration .ns)
    ∧ dtypeShortReprToDtype (some (canonicalTextForType (.decimal (some 10) (some 2))))
        = some .decimalCls := by
  decide

/-- C5 (code bug): the `dtype` variable of `_inject_type_overrides` is
declared once before the loop, so a column whose `type_code` is neither a
class nor a string inherits the dtype inferred for the previously processed
column: two descriptions that differ only in column `a`'s descriptor give
column `b` (whose type code is a driver-specific object) the override
String in one run and Int64 in the other, although the claim — matching
the function's own comment that only string/python-type codes are used for
inference — says `b` should receive no override at all. -/
theorem C5_theorem :
    injectTypeOverrides
      [(("a".data), some { typeCode := .strCode ("VARCHAR".data) }),
       (("b".data), some { typeCode := .otherCode })] []
      = .ok [(("a".data), .string), (("b".data), .string)]
    ∧ injectTypeOverrides
      [(("a".data), some { typeCode := .strCode ("BIGINT".data) }),
       (("b".data), some { typeCode := .otherCode })] []
      = .ok [(("a".data), .int64), (("b".data), .int64)]
    ∧ Dtype.string ≠ Dtype.int64 := by decide

/-- C6: `"TIMESTAMP WITH TIME ZONE"` yields no match while
`"TIMESTAMP WITHOUT TIME ZONE"` yields `Datetime(us, None)`; and in
general, any name that reaches the datetime rule and mentions a timezone
qualifier (`TZ`/`TIMEZONE` in the space-stripped name) without containing
`WITHOUT` produces no match, under either setting of `raise_unmatched`. -/
theorem C6_theorem :
    inferDb ("TIMESTAMP WITH TIME ZONE".data) false = .ok none
    ∧ inferDb ("TIMESTAMP WITHOUT TIME ZONE".data) false
        = .ok (some (.datetime .us none))
    ∧ ∀ (raw v m : Str) (raiseU : Bool),
        normalizeDb raw = (v, m) →
        arrayCond v = false → floatCond v = false → integerCond v = false →
        decimalCond v = false → stringCond v = false → binaryCond v = false →
        boolCond v = false → datetimeCond v = true →
        tzMention v = true → withoutMention v = false →
        inferDb raw raiseU = .ok none := by
  refine ⟨by decide, by decide, ?_⟩
  intro raw v m raiseU hnorm h1 h2 h3 h4 h5 h6 h7 h8 htz hwo
  unfold inferDb
  rw [inferDbF_succ, hnorm]
  exact classify_datetime_tz_none _ _ _ _ h1 h2 h3 h4 h5 h6 h7 h8 htz hwo

/-- C6 (witness): the general clause applied to
`"TIMESTAMP WITH TIME ZONE"` with `raise_unmatched=True`. -/
theorem C6_witness :
    inferDb ("TIMESTAMP WITH TIME ZONE".data) true = .ok none :=
  C6_theorem.2.2 ("TIMESTAMP WITH TIME ZONE".data) ("TIMESTAMP WITH TIME ZONE".data) [] true
    rfl rfl rfl rfl rfl rfl rfl rfl rfl rfl rfl

/-- C7: `"INTEGER[]"` maps to `List(Int64)` and `"VARCHAR(64)[]"` to
`List(String)` (and `"ARRAY(INTEGER)"`, whose remainder is empty after
stripping the marker, classifies its modifier to the same `List(Int64)`);
and in general, whenever the normalised name matches the array rule, any
successfully inferred dtype is a `List` of some inner type. -/
theorem C7_theorem :
    inferDb ("INTEGER[]".data) false = .ok (some (.list .int64))
    ∧ inferDb ("VARCHAR(64)[]".data) false = .ok (some (.list .string))
    ∧ inferDb ("ARRAY(INTEGER)".data) false = .ok (some (.list .int64))
    ∧ ∀ (raw v m : Str) (raiseU : Bool) (d : Dtype),
        normalizeDb raw = (v, m) → arrayCond v = true →
        inferDb raw raiseU = .ok (some d) → ∃ inner, d = .list inner := by
  refine ⟨by decide, by decide, by decide, ?_⟩
  intro raw v m raiseU d hnorm h1 h
  unfold inferDb at h
  rw [inferDbF_succ, hnorm] at h
  exact classify_array_list _ _ _ _ _ h1 h

/-- C7 (witness): the general clause applied to `"INTEGER[]"`. -/
theorem C7_witness : ∃ inner, Dtype.list Dtype.int64 = Dtype.list inner :=
  C7_theorem.2.2.2 ("INTEGER[]".data) ("INTEGER[]".data) [] false (Dtype.list Dtype.int64)
    rfl rfl (by decide)

/-- C8: for a short-repr string `base[args]` whose base resolves through
the repr table, a failure to construct the parameterized type from the
arguments yields the un-parameterized base type (never `none` and never an
exception), and for the `Decimal` base the arguments are interpreted
positionally as `(precision=None, scale=int(args))` — with a failing
`int(args)` again yielding the bare `Decimal` base. -/
theorem C8_theorem (base args : Str) (d : Dtype)
    (h1 : alookup base REPR_TO_DTYPE = some d)
    (h2 : args ≠ [])
    (h3 : args.all (fun c => c != '\n') = true) :
    (d ≠ .decimalCls → applyDtypeArgs d (splitArgs args) = none →
      dtypeShortReprToDtype (some (base ++ '[' :: (args ++ [']']))) = some d)
    ∧ (d = .decimalCls →
      dtypeShortReprToDtype (some (base ++ '[' :: (args ++ [']']))) =
        some (match pyInt args with
              | some n => Dtype.decimal none (some n)
              | none => Dtype.decimalCls)) := by
  have hmem := alookup_mem _ _ _ h1
  have hbase := repr_keys_wordlike _ hmem
  have hmatch := shortReprMatch_concat base args hbase.1 hbase.2 h2 h3
  constructor
  · intro hd hfail
    simp only [dtypeShortReprToDtype, hmatch, h1]
    rw [if_neg hd, hfail]
  · intro hd
    subst hd
    simp only [dtypeShortReprToDtype, hmatch, h1]
    cases hp : pyInt args <;> simp [hp]

/-- C8 (witness): `datetime[qq]` (whose argument fails the time-unit
constructor) parses to the bare `Datetime` class, and `decimal[10,2]`
follows the `(None, int(args))` interpretation (whose `int` fails, giving
the bare `Decimal` class). -/
theorem C8_witness :
    dtypeShortReprToDtype (some (("datetime".data) ++ '[' :: (("qq".data) ++ [']'])))
      = some Dtype.datetimeCls
    ∧ dtypeShortReprToDtype (some (("decimal".data) ++ '[' :: (("10,2".data) ++ [']'])))
      = some (match pyInt ("10,2".data) with
              | some n => Dtype.decimal none (some n)
              | none => Dtype.decimalCls) :=
  ⟨(C8_theorem ("datetime".data) ("qq".data) Dtype.datetimeCls rfl (by decide) (by decide)).1
      (by decide) rfl,
   (C8_theorem ("decimal".data) ("10,2".data) Dtype.decimalCls rfl (by decide) (by decide)).2
      rfl⟩

/-- C9: coercing the non-numeric string `"xyz"` into `Int64` in strict
mode raises a `SchemaError` whose message contains "unexpected value",
while in lenient mode the same value becomes a null without aborting the
rest of the batch. -/
theorem C9_theorem :
    coerceInt64 true (.vStr ("xyz".data)) = .error (.schemaError int64MismatchMsg)
    ∧ containsSub ("unexpected value".data) int64MismatchMsg = true
    ∧ coerceInt64 false (.vStr ("xyz".data)) = .ok none
    ∧ coerceInt64Batch false [.vInt 1, .vStr ("xyz".data), .vInt 7]
        = .ok [some 1, none, some 7] := by
  refine ⟨by decide, by decide, by decide, by decide⟩

/-- C10: the injection never changes an entry already present in the
caller-supplied `schema_overrides` — every name bound at call time is still
bound to the caller's dtype in the result — and the result is the caller's
mapping extended only with entries for names that were not already
present. -/
theorem C10_theorem (desc : List (Str × Option ColDesc)) (so so2 : List (Str × Dtype))
    (h : injectTypeOverrides desc so = .ok so2) :
    (∀ nm d, alookup nm so = some d → alookup nm so2 = some d)
    ∧ ∃ extra, so2 = so ++ extra ∧ ∀ nm, aMem nm extra = true → aMem nm so = false := by
  rcases injectGo_extends desc so none so2 h with ⟨extra, hso2, hfresh⟩
  refine ⟨?_, extra, hso2, hfresh⟩
  intro nm d hd
  rw [hso2, alookup_append, hd]

/-- C10 (witness): a caller override for column `a` survives the injection
over a description that also reports column `a`. -/
theorem C10_witness :
    alookup ("a".data) [(("a".data), Dtype.uint8)] = some Dtype.uint8 :=
  (C10_theorem [(("a".data), some { typeCode := .strCode ("VARCHAR".data) })]
    [(("a".data), Dtype.uint8)] [(("a".data), Dtype.uint8)] rfl).1 ("a".data) Dtype.uint8 rfl

/-! ## Fuel irrelevance

Every recursive call of `_infer_dtype_from_database_typename` strictly
shortens its string argument, so `inferDbF` gives the same answer for every
fuel above the string length; in particular `inferDb`'s choice of
`length + 1` models the (terminating) Python recursion exactly. -/

theorem hasPfx_iff (p w : Str) : hasPfx p w = true ↔ ∃ t, w = p ++ t := by
  induction p generalizing w with
  | nil => simp [hasPfx]
  | cons a ps ih =>
    cases w with
    | nil =>
      simp only [hasPfx]
      constructor
      · intro h; exact absurd h (by simp)
      · rintro ⟨t, ht⟩; exact absurd ht (by simp)
    | cons c cs =>
      simp only [hasPfx, Bool.and_eq_true, beq_iff_eq, ih]
      constructor
      · rintro ⟨rfl, t, rfl⟩; exact ⟨t, rfl⟩
      · rintro ⟨t, ht⟩
        rw [List.cons_append] at ht
        exact ⟨((List.cons.inj ht).1).symm, t, (List.cons.inj ht).2⟩

theorem containsSub_iff (p v : Str) : containsSub p v = true ↔ ∃ l t, v = l ++ p ++ t := by
  induction v with
  | nil =>
    simp only [containsSub, hasPfx_iff]
    constructor
    · rintro ⟨t, ht⟩; exact ⟨[], t, ht⟩
    · rintro ⟨l, t, ht⟩
      cases l with
      | nil => exact ⟨t, by simpa using ht⟩
      | cons a as => exact absurd ht (by simp)
  | cons c cs ih =>
    simp only [containsSub, Bool.or_eq_true, hasPfx_iff, ih]
    constructor
    · rintro (⟨t, ht⟩ | ⟨l, t, ht⟩)
      · exact ⟨[], t, by simpa using ht⟩
      · exact ⟨c :: l, t, by simp [ht]⟩
    · rintro ⟨l, t, ht⟩
      cases l with
      | nil => exact Or.inl ⟨t, by simpa using ht⟩
      | cons a as =>
        rw [List.cons_append, List.cons_append] at ht
        exact Or.inr ⟨as, t, (List.cons.inj ht).2⟩

theorem hasSfx_containsSub (p v : Str) (h : hasSfx p v = true) : containsSub p v = true := by
  rcases (hasPfx_iff p.reverse v.reverse).mp h with ⟨t, ht⟩
  have : v = t.reverse ++ p := by
    have := congrArg List.reverse ht
    simpa using this
  exact (containsSub_iff p v).mpr ⟨t.reverse, [], by simpa using this⟩

theorem hasPfx_containsSub (p v : Str) (h : hasPfx p v = true) : containsSub p v = true := by
  rcases (hasPfx_iff p v).mp h with ⟨t, ht⟩
  exact (containsSub_iff p v).mpr ⟨[], t, by simpa using ht⟩

theorem hasPfx_length (p w : Str) (h : hasPfx p w = true) : p.length ≤ w.length := by
  rcases (hasPfx_iff p w).mp h with ⟨t, rfl⟩
  simp

theorem replFirst_length_le (pat : Str) : ∀ v : Str, (replFirst pat v).length ≤ v.length := by
  intro v
  induction v with
  | nil => simp [replFirst]
  | cons c rest ih =>
    unfold replFirst
    split
    · simp
    · simpa using ih

theorem replFirst_length_of_contains (pat : Str) :
    ∀ v : Str, containsSub pat v = true →
      (replFirst pat v).length + pat.length = v.length := by
  intro v
  induction v with
  | nil =>
    intro h
    rcases (containsSub_iff pat []).mp h with ⟨l, t, ht⟩
    have : l = [] ∧ pat = [] ∧ t = [] := by
      constructor
      · cases l with
        | nil => rfl
        | cons a as => exact absurd ht (by simp)
      constructor
      · cases pat with
        | nil => rfl
        | cons a as => cases l <;> exact absurd ht (by simp)
      · cases t with
        | nil => rfl
        | cons a as => cases l <;> cases pat <;> exact absurd ht (by simp)
    simp [replFirst, this.2.1]
  | cons c rest ih =>
    intro h
    unfold replFirst
    split
    · rename_i hp
      have hle := hasPfx_length pat (c :: rest) hp
      simp only [List.length_drop, List.length_cons] at *
      omega
    · rename_i hp
      have hrest : containsSub pat rest = true := by
        have := h
        unfold containsSub at this
        rcases Bool.or_eq_true_iff.mp this with h1 | h1
        · exact absurd h1 (by simpa using hp)
        · exact h1
      have := ih hrest
      simp only [List.length_cons]
      omega

theorem replFirst_of_not_contains (pat : Str) :
    ∀ v : Str, containsSub pat v = false → replFirst pat v = v := by
  intro v
  induction v with
  | nil => intro _; rfl
  | cons c rest ih =>
    intro h
    unfold containsSub at h
    rcases Bool.or_eq_false_iff.mp h with ⟨h1, h2⟩
    unfold replFirst
    rw [if_neg (by simp [h1])]
    rw [ih h2]

theorem stripAliases_length (v : Str) (h : arrayCond v = true) :
    (stripAliases v).length + 2 ≤ v.length := by
  have hA : ("ARRAY".data : Str).length = 5 := rfl
  have hL : ("LIST".data : Str).length = 4 := rfl
  have hB : ("[]".data : Str).length = 2 := rfl
  have hone : containsSub ("ARRAY".data) v = true ∨ containsSub ("LIST".data) v = true ∨
      containsSub ("[]".data) v = true := by
    unfold arrayCond at h
    rcases Bool.or_eq_true_iff.mp h with h2 | h1
    · rcases Bool.or_eq_true_iff.mp h2 with h2 | h1
      · rcases Bool.or_eq_true_iff.mp h2 with h2 | h1
        · rcases Bool.or_eq_true_iff.mp h2 with h2 | h1
          · rcases Bool.or_eq_true_iff.mp h2 with h1 | h1
            · exact Or.inl (hasSfx_containsSub _ _ h1)
            · exact Or.inr (Or.inl (hasSfx_containsSub _ _ h1))
          · exact Or.inr (Or.inr (hasSfx_containsSub _ _ h1))
        · exact Or.inl (hasPfx_containsSub _ _ h1)
      · exact Or.inr (Or.inl (hasPfx_containsSub _ _ h1))
    · exact Or.inr (Or.inr (hasPfx_containsSub _ _ h1))
  unfold stripAliases
  by_cases ha : containsSub ("ARRAY".data) v = true
  · have e1 := replFirst_length_of_contains ("ARRAY".data) v ha
    rw [hA] at e1
    have e2 := replFirst_length_le ("LIST".data) (replFirst ("ARRAY".data) v)
    have e3 := replFirst_length_le ("[]".data)
      (replFirst ("LIST".data) (replFirst ("ARRAY".data) v))
    omega
  · rw [replFirst_of_not_contains _ _ (Bool.eq_false_iff.mpr ha)]
    by_cases hl : containsSub ("LIST".data) v = true
    · have e1 := replFirst_length_of_contains ("LIST".data) v hl
      rw [hL] at e1
      have e2 := replFirst_length_le ("[]".data) (replFirst ("LIST".data) v)
      omega
    · rw [replFirst_of_not_contains _ _ (Bool.eq_false_iff.mpr hl)]
      have hb : containsSub ("[]".data) v = true := by
        rcases hone with h1 | h1 | h1
        · exact absurd h1 ha
        · exact absurd h1 hl
        · exact h1
      have e1 := replFirst_length_of_contains ("[]".data) v hb
      rw [hB] at e1
      omega

theorem removeTYPEAux_length : ∀ (n : Nat) (v : Str), (removeTYPEAux n v).length ≤ v.length := by
  intro n v
  induction v generalizing n with
  | nil => cases n <;> simp [removeTYPEAux]
  | cons c rest ih =>
    cases n with
    | succ k =>
      calc (removeTYPEAux (k + 1) (c :: rest)).length = (removeTYPEAux k rest).length := rfl
        _ ≤ rest.length := ih k
        _ ≤ (c :: rest).length := by simp
    | zero =>
      unfold removeTYPEAux
      split
      · calc (removeTYPEAux 3 rest).length ≤ rest.length := ih 3
          _ ≤ (c :: rest).length := by simp
      · simpa using ih 0

theorem removeOFAux_length : ∀ (n : Nat) (v : Str), (removeOFAux n v).length ≤ v.length := by
  intro n v
  induction v generalizing n with
  | nil => cases n <;> simp [removeOFAux]
  | cons c rest ih =>
    cases n with
    | succ k =>
      calc (removeOFAux (k + 1) (c :: rest)).length = (removeOFAux k rest).length := rfl
        _ ≤ rest.length := ih k
        _ ≤ (c :: rest).length := by simp
    | zero =>
      unfold removeOFAux
      split
      · calc (removeOFAux 3 rest).length ≤ rest.length := ih 3
          _ ≤ (c :: rest).length := by simp
      · simpa using ih 0

theorem beforeChar_length (ch : Char) : ∀ v : Str, (beforeChar ch v).length ≤ v.length := by
  intro v
  induction v with
  | nil => simp [beforeChar]
  | cons c rest ih =>
    unfold beforeChar
    split
    · simp
    · simpa using ih

theorem afterChar_length (ch : Char) :
    ∀ v : Str, afterChar ch v = [] ∨ (afterChar ch v).length < v.length := by
  intro v
  induction v with
  | nil => exact Or.inl rfl
  | cons c rest ih =>
    unfold afterChar
    split
    · exact Or.inr (by simp)
    · rcases ih with h | h
      · exact Or.inl h
      · exact Or.inr (by simp; omega)

theorem normalized_length (w : Str) : (removeTYPE (strUpper w)).length ≤ w.length := by
  calc (removeTYPE (strUpper w)).length ≤ (strUpper w).length := removeTYPEAux_length 0 _
    _ = w.length := List.length_map _ _

theorem extractModifier_fst_length (x : Str) : (extractModifier x).1.length ≤ x.length := by
  unfold extractModifier
  split
  · exact beforeChar_length '(' x
  · split
    · exact beforeChar_length '[' x
    · simp

theorem extractModifier_snd_length (x : Str) (h : (extractModifier x).2 ≠ []) :
    (extractModifier x).2.length < x.length := by
  unfold extractModifier at *
  by_cases h1 : parenModMatch x = true
  · rw [if_pos h1] at h ⊢
    dsimp only at h ⊢
    rcases afterChar_length '(' x with ha | ha
    · rw [ha] at h
      exact absurd rfl h
    · have hd := List.length_dropLast (afterChar '(' x)
      omega
  · rw [if_neg h1] at h ⊢
    by_cases h2 : ((!(hasPfx ("<".data) x || hasPfx (">".data) x) && bracketModMatch x)
        || hasSfx ("[S]".data) x || hasSfx ("[MS]".data) x
        || hasSfx ("[US]".data) x || hasSfx ("[NS]".data) x) = true
    · rw [if_pos h2] at h ⊢
      dsimp only at h ⊢
      rcases afterChar_length '[' x with ha | ha
      · rw [ha] at h
        exact absurd rfl h
      · have hd := List.length_dropLast (afterChar '[' x)
        omega
    · rw [if_neg h2] at h ⊢
      exact absurd rfl h

theorem normalizeDb_fst_length (w : Str) : (normalizeDb w).1.length ≤ w.length :=
  le_trans (extractModifier_fst_length _) (normalized_length w)

theorem normalizeDb_snd_length (w : Str) (h : (normalizeDb w).2 ≠ []) :
    (normalizeDb w).2.length < w.length :=
  lt_of_lt_of_le (extractModifier_snd_length _ h) (normalized_length w)

theorem arrayInnerName_length (c : Char) (rest : Str) :
    (arrayInnerName c rest).length ≤ (c :: rest).length := by
  unfold arrayInnerName
  split
  · have := List.length_dropLast rest
    simp only [List.length_cons]
    omega
  · calc (filterWordChars (removeOFDelim (c :: rest))).length
        ≤ (removeOFDelim (c :: rest)).length := List.length_filter_le _ _
    _ ≤ (c :: rest).length := removeOFAux_length 0 _

theorem arrayNested_congr (recur1 recur2 : Str → Except PyErr (Option Dtype)) (v m : Str)
    (hm : m ≠ [] → recur1 m = recur2 m)
    (hin : ∀ c rest, stripAliases v = c :: rest →
      recur1 (arrayInnerName c rest) = recur2 (arrayInnerName c rest)) :
    arrayNested recur1 v m = arrayNested recur2 v m := by
  unfold arrayNested
  cases hs : stripAliases v with
  | nil =>
    cases m with
    | nil => rfl
    | cons a as =>
      simp only [List.isEmpty_cons, Bool.not_false, if_true]
      exact hm (by simp)
  | cons c rest =>
    dsimp only
    rw [hin c rest hs]
    cases hr : recur2 (arrayInnerName c rest) with
    | error e => simp [hr]
    | ok d =>
      cases d with
      | some t => simp [hr]
      | none =>
        simp only [hr]
        cases m with
        | nil => rfl
        | cons a as =>
          simp only [List.isEmpty_cons, Bool.not_false, if_true]
          exact hm (by simp)

theorem classifyStep_congr (recur1 recur2 : Str → Except PyErr (Option Dtype))
    (v m : Str) (raiseU : Bool)
    (hm : m ≠ [] → recur1 m = recur2 m)
    (hin : ∀ c rest, arrayCond v = true → stripAliases v = c :: rest →
      recur1 (arrayInnerName c rest) = recur2 (arrayInnerName c rest)) :
    classifyStep recur1 v m raiseU = classifyStep recur2 v m raiseU := by
  unfold classifyStep
  by_cases ha : arrayCond v = true
  · rw [if_pos ha, if_pos ha,
      arrayNested_congr recur1 recur2 v m hm (fun c rest => hin c rest ha)]
  · rw [if_neg ha, if_neg ha]

theorem inferDbF_fuel (f : Nat) :
    ∀ (w : Str) (raiseU : Bool), w.length < f →
      inferDbF f w raiseU = inferDbF (w.length + 1) w raiseU := by
  induction f using Nat.strong_induction_on with
  | _ f ih =>
    intro w raiseU hf
    cases f with
    | zero => omega
    | succ k =>
      rw [inferDbF_succ, inferDbF_succ]
      have hwk : w.length ≤ k := by omega
      apply classifyStep_congr
      · intro hm2
        have hlt : (normalizeDb w).2.length < w.length := normalizeDb_snd_length w hm2
        have h1 := ih k (by omega) (normalizeDb w).2 false (by omega)
        have h2 := ih w.length (by omega) (normalizeDb w).2 false (by omega)
        rw [h1, h2]
      · intro c rest hac hs
        have hsl := stripAliases_length (normalizeDb w).1 hac
        rw [hs] at hsl
        have hvl := normalizeDb_fst_length w
        have hil := arrayInnerName_length c rest
        have hlt : (arrayInnerName c rest).length < w.length := by
          simp only [List.length_cons] at hsl hil
          omega
        have h1 := ih k (by omega) (arrayInnerName c rest) false (by omega)
        have h2 := ih w.length (by omega) (arrayInnerName c rest) false (by omega)
        rw [h1, h2]

/-- Any fuel above the string length gives the same result: the fuel used by
`inferDb` is immaterial, matching the terminating recursion of the source. -/
theorem inferDbF_fuel_eq (f1 f2 : Nat) (w : Str) (raiseU : Bool)
    (h1 : w.length < f1) (h2 : w.length < f2) :
    inferDbF f1 w raiseU = inferDbF f2 w raiseU := by
  rw [inferDbF_fuel f1 w raiseU h1, inferDbF_fuel f2 w raiseU h2]
